import Mathlib

/-
  Verification development for the resource-registration client in
  src/sdk/nodejs/runtime/resource.ts.

  The file shallowly embeds the data model and the operations of that
  source file:
    - the output-merge step (resolveOutputs, lines 265-289),
    - the dependency-set computation of prepareResource (lines 218-259),
    - the synchronous prefix of prepareResource (lines 182-214),
    - the identity check at the top of readResource (lines 56-60),
    - the RPC completion callbacks of readResource (lines 86-103),
      registerResource (lines 142-173) and registerResourceOutputs
      (lines 316-334), including the engine-unavailable handling that
      calls waitForDeath (lines 390-393),
    - the ordering machinery runAsyncResourceOp (lines 344-376).

  The external property codec is kept abstract: serialization is a
  parameter of type JSVal -> Option JSVal (a result of none models the
  JavaScript value undefined) and deserialization a parameter of type
  JSVal -> JSVal, exactly the shape the source consumes from ./rpc.

  Definitions come first, all theorems follow.
-/

/-- Model of a JavaScript value carried in a property bag.  The codec is
external, so the constructors only need to distinguish enough concrete
values to instantiate the theorems; the merge logic itself is fully
generic in the values. -/
inductive JSVal where
  | str : String → JSVal
  | num : Int → JSVal
  | boolean : Bool → JSVal
  | null : JSVal
  | unknownSentinel : JSVal
deriving DecidableEq

/-- First-binding lookup in a property bag, the model of reading
`bag[key]` / `bag.hasOwnProperty(key)` on a JavaScript object whose keys
are unique. -/
def lookupKey (k : String) : List (String × JSVal) → Option JSVal
  | [] => none
  | kv :: rest => if kv.1 = k then some kv.2 else lookupKey k rest

/-- Model of `deserializeProperties(outputs)` (rpc.ts collaborator): the
per-value deserializer applied to every entry of the engine-returned
bag. -/
def deserializeProperties (de : JSVal → JSVal) (o : List (String × JSVal)) :
    List (String × JSVal) :=
  o.map (fun kv => (kv.1, de kv.2))

/-- The `for (const key of Object.keys(props))` loop of resolveOutputs
(resource.ts lines 275-286): a key already present in `allProps` is kept
as is; otherwise the input value is serialized, a result of undefined
(`none`) drops the key, and any other result is deserialized and
appended. -/
def resolveOutputsLoop (ser : JSVal → Option JSVal) (de : JSVal → JSVal) :
    List (String × JSVal) → List (String × JSVal) → List (String × JSVal)
  | allProps, [] => allProps
  | allProps, kv :: rest =>
    if (lookupKey kv.1 allProps).isSome then
      resolveOutputsLoop ser de allProps rest
    else
      match ser kv.2 with
      | none => resolveOutputsLoop ser de allProps rest
      | some sp => resolveOutputsLoop ser de (allProps ++ [(kv.1, de sp)]) rest

/-- Model of resolveOutputs (resource.ts lines 265-289): start from the
deserialized engine output bag (empty when the engine returned none,
line 270), then run the fallback loop over the original input keys.
The final call to resolveProperties only feeds this bag into the
per-property resolvers and is external to the merge itself. -/
def resolveOutputs (ser : JSVal → Option JSVal) (de : JSVal → JSVal)
    (outputs : Option (List (String × JSVal)))
    (props : List (String × JSVal)) : List (String × JSVal) :=
  resolveOutputsLoop ser de
    (match outputs with
     | none => []
     | some o => deserializeProperties de o)
    props

/-- A resource as seen by the dependency computation: only its URN (the
fully awaited value of `res.urn.promise()`) matters here.  In the source
the URN is a promise; prepareResource awaits it (lines 225-226 and 248),
so the model carries the awaited string directly. -/
structure SRes where
  urn : String
deriving DecidableEq

/-- The three shapes of `opts.dependsOn` distinguished by lines 219-224:
an array, a single resource, or absent. -/
inductive DependsOnOpt where
  | undef : DependsOnOpt
  | one : SRes → DependsOnOpt
  | arr : List SRes → DependsOnOpt

/-- Lines 219-224: `if (Array.isArray(opts.dependsOn)) dependsOn =
opts.dependsOn; else if (opts.dependsOn) dependsOn = [opts.dependsOn];`
(a resource object is always truthy, so `one` always passes the truthy
test). -/
def normalizeDependsOn : DependsOnOpt → List SRes
  | DependsOnOpt.arr rs => rs
  | DependsOnOpt.one r => [r]
  | DependsOnOpt.undef => []

/-- `Set.prototype.add` of a JavaScript Set materialized as an ordered,
duplicate-free list: insertion order is kept and an element already
present is not inserted again. -/
def jsSetAdd (s : List String) (u : String) : List String :=
  if u ∈ s then s else s ++ [u]

/-- `new Set(explicitURNDeps)` (line 246): fold insertion over the list. -/
def jsSetOfList (l : List String) : List String := l.foldl jsSetAdd []

/-- The dependency set prepareResource sends to the engine (lines
218-259): the explicit dependsOn list is normalized and resolved to URNs
(lines 219-226), a Set is built from them (line 246), and every resource
implicitly referenced by the serialized input values is added by URN
(lines 247-249).  `Array.from` of the Set (lines 81 and 137) is the
resulting list. -/
def prepareResourceDependencies (dependsOn : DependsOnOpt)
    (implicitDependencies : List SRes) : List String :=
  (implicitDependencies.map SRes.urn).foldl jsSetAdd
    (jsSetOfList ((normalizeDependsOn dependsOn).map SRes.urn))

/-- The two independently resolvable channels of a deferred output value
(Output.create receives one promise per channel, lines 186-191 and
198-202). -/
inductive Chan (α : Type) where
  | pending : Chan α
  | resolved : α → Chan α
deriving DecidableEq

/-- The pair of channels behind one Output: the raw value and the
apply-eligibility flag (named performApply in the source). -/
structure OutputChans where
  value : Chan String
  performApply : Chan Bool
deriving DecidableEq

/-- The deferred values attached to a resource by the synchronous prefix
of prepareResource. -/
structure ResourceState where
  urn : Option OutputChans
  id : Option OutputChans
  transferredKeys : List String
deriving DecidableEq

/-- The synchronous prefix of prepareResource (lines 182-214), which runs
before the first await: the URN output is created with a pending value
promise and an already-resolved performApply promise of true (lines
186-191); if the resource is custom, an id output is created with both
channels pending (lines 194-207); every input property key is
transferred into a resolver (line 214). -/
def prepareResourceSync (custom : Bool) (propKeys : List String) :
    ResourceState :=
  { urn := some { value := Chan.pending, performApply := Chan.resolved true }
    id :=
      if custom then
        some { value := Chan.pending, performApply := Chan.pending }
      else
        none
    transferredKeys := propKeys }

/-- A gRPC service error as observed by the RPC completion callbacks:
a numeric status code and a message. -/
structure GrpcError where
  code : Nat
  message : String
deriving DecidableEq

/-- `grpc.status.UNAVAILABLE`, the status compared against on lines 148
and 323. -/
def grpcStatusUNAVAILABLE : Nat := 14

/-- What an RPC completion callback does with the surrounding promise:
fulfill it, reject it with a message, or never return at all.  The
`parked` constructor models a call to waitForDeath (lines 390-393), the
function that loops forever, so neither resolve nor reject ever runs and
no further remote calls are issued by the callback. -/
inductive RpcOutcome (α : Type) where
  | resolved : α → RpcOutcome α
  | rejected : String → RpcOutcome α
  | parked : RpcOutcome α
deriving DecidableEq

/-- The completion callback of the monitor.readResource RPC (lines
86-97): on any error, the preallocated error gets the read-failure
message and the promise is rejected; there is no check of the gRPC
status code on this path.  The model drops the quote characters that the
source places around the name.  On success the response is resolved. -/
def readResourceCallbackOutcome {α : Type} (resolvedID name t : String)
    (err : Option GrpcError) (resp : α) : RpcOutcome α :=
  match err with
  | some e =>
    RpcOutcome.rejected
      ("failed to read resource #" ++ resolvedID ++ " " ++ name ++
        " [" ++ t ++ "]: " ++ e.message)
  | none => RpcOutcome.resolved resp

/-- The completion callback of the monitor.registerResource RPC (lines
142-160): when the error carries status UNAVAILABLE the callback calls
waitForDeath and never reaches the rejection (lines 148-151); any other
error rejects with the registration-failure message; success resolves
the response. -/
def registerResourceCallbackOutcome {α : Type} (name t : String)
    (err : Option GrpcError) (resp : α) : RpcOutcome α :=
  match err with
  | some e =>
    if e.code = grpcStatusUNAVAILABLE then
      RpcOutcome.parked
    else
      RpcOutcome.rejected
        ("failed to register new resource " ++ name ++ " [" ++ t ++ "]: " ++
          e.message)
  | none => RpcOutcome.resolved resp

/-- The completion callback of the monitor.registerResourceOutputs RPC
(lines 316-334): the same UNAVAILABLE handling as registration (lines
323-326); any other error is logged and the original error rejects the
promise. -/
def registerResourceOutputsCallbackOutcome {α : Type}
    (err : Option GrpcError) (resp : α) : RpcOutcome α :=
  match err with
  | some e =>
    if e.code = grpcStatusUNAVAILABLE then
      RpcOutcome.parked
    else
      RpcOutcome.rejected e.message
  | none => RpcOutcome.resolved resp

/-- The value found in `opts.id` (`Input<ID> | undefined`): a plain
string, or a wrapper object (a promise or an Output, both always truthy
in JavaScript). -/
inductive IdInput where
  | str : String → IdInput
  | obj : IdInput
deriving DecidableEq

/-- JavaScript truthiness of `opts.id` as tested by `if (!id)` on line
58: absent and the empty string are falsy; a non-empty string and any
wrapper object are truthy. -/
def idInputTruthy : Option IdInput → Bool
  | none => false
  | some (IdInput.str s) => if s = "" then false else true
  | some IdInput.obj => true

/-- The synchronous identity check at the top of readResource (lines
56-60), which runs before prepareResource is called on line 66 and hence
before any remote call: a falsy id throws. -/
def readResourceIdCheck (optsId : Option IdInput) : Except String Unit :=
  if idInputTruthy optsId then Except.ok ()
  else Except.error "Cannot read resource whose options are lacking an ID value"

/-- The fields of the ReadResourceResponse message used by the client:
the URN and the output properties (the response of a read carries no
engine-assigned id at all). -/
structure ReadResourceResponse where
  urn : String
  properties : Option (List (String × JSVal))

/-- What the success continuation of a read resolves (lines 99-102). -/
structure ReadSuccessResolution where
  urnValue : String
  idValue : Option String
  idPerformApply : Bool
  outputBag : List (String × JSVal)

/-- The success continuation of readResource (lines 99-102): the URN is
resolved to the engine answer, the id is resolved to the caller-supplied
id as serialized before the call (`resolvedID`), with apply-eligibility
given by `resolvedID !== undefined`, and the outputs are merged. -/
def readResourceOnSuccess (ser : JSVal → Option JSVal) (de : JSVal → JSVal)
    (props : List (String × JSVal)) (resolvedID : Option String)
    (resp : ReadResourceResponse) : ReadSuccessResolution :=
  { urnValue := resp.urn
    idValue := resolvedID
    idPerformApply := resolvedID.isSome
    outputBag := resolveOutputs ser de resp.properties props }

/-- The fields of the RegisterResourceResponse message used by the
client: URN, id (a protobuf string, empty when the engine assigned
none), and the output object. -/
structure RegisterResourceResponse where
  urn : String
  id : String
  obj : Option (List (String × JSVal))

/-- Lines 164-168: `const id = resp.getId() || undefined;
resop.resolveID(id, id !== undefined);`.  The only falsy protobuf string
is the empty string, so `|| undefined` collapses exactly the empty id to
undefined, and apply-eligibility is the definedness of the collapsed
id. -/
def registerResourceIdResolution (respId : String) : Option String × Bool :=
  ((if respId = "" then none else some respId),
   (if respId = "" then none else some respId).isSome)

/-- What the success continuation of a registration resolves. -/
structure RegisterSuccessResolution where
  urnValue : String
  idResolution : Option (Option String × Bool)
  outputBag : List (String × JSVal)

/-- The success continuation of registerResource (lines 162-172): the URN
is resolved to the engine answer; the id resolver exists exactly when the
resource is custom (lines 194-208) and receives the collapsed engine id;
the outputs are merged. -/
def registerResourceOnSuccess (ser : JSVal → Option JSVal)
    (de : JSVal → JSVal) (props : List (String × JSVal)) (custom : Bool)
    (resp : RegisterResourceResponse) : RegisterSuccessResolution :=
  { urnValue := resp.urn
    idResolution :=
      if custom then some (registerResourceIdResolution resp.id) else none
    outputBag := resolveOutputs ser de resp.obj props }

/-- Success or failure of an asynchronous operation, as carried by its
promise. -/
inductive Outcome where
  | ok : Outcome
  | err : String → Outcome
deriving DecidableEq

/-- The process-wide mutable state of the ordering machinery: the time at
which the current `resourceChain` promise settles (line 344 initializes
it to an already-settled promise, modelled as time 0).  Only serial
operations ever replace it (line 371), so the state is a single value,
not an accumulating queue. -/
structure SchedState where
  chain : Nat
deriving DecidableEq

/-- The initial chain, `Promise.resolve()` (line 344): settled at time 0. -/
def initialSchedState : SchedState := { chain := 0 }

/-- Everything one call to runAsyncResourceOp produces, in a timed model
of the single-threaded event loop.  A promise is represented by the time
at which it settles; a callback is a function from its start time to the
settle time and outcome of the promise it returns. -/
structure OpRun where
  cbStart : Nat
  opEnd : Nat
  outcome : Outcome
  keepAliveAcquire : Nat
  keepAliveReleases : List Nat
  finalOpOutcome : Outcome
  unhandled : Option String
  next : SchedState
deriving DecidableEq

/-- Model of runAsyncResourceOp (lines 348-376), called at `schedTime`
with the chain state `st`:
  - the serial flag defaults to the process-wide serialize mode when not
    given (lines 350-352);
  - `resourceOp = resourceChain.then(... callback())` (lines 353-359):
    the callback starts when the current chain promise has settled and
    not before the call is scheduled, so at `max st.chain schedTime`,
    for every operation, serial or not; resourceOp settles when the
    callback promise settles;
  - `const done = rpcKeepAlive()` (line 362) runs synchronously at
    scheduling time, before the callback starts;
  - `finalOp = resourceOp.then(done, done)` (line 363): done is invoked
    exactly once when resourceOp settles, on the success and on the
    failure path alike, and finalOp itself always fulfills, swallowing
    any error;
  - `resourceOp.catch(err => Promise.reject(err))` (line 366) surfaces a
    failure to the unhandled-rejection machinery;
  - only a serial operation replaces the chain by its own finalOp
    (lines 370-375). -/
def runAsyncResourceOp (serializeMode : Bool) (explicitSerial : Option Bool)
    (st : SchedState) (schedTime : Nat) (cb : Nat → Nat × Outcome) : OpRun :=
  { cbStart := max st.chain schedTime
    opEnd := (cb (max st.chain schedTime)).1
    outcome := (cb (max st.chain schedTime)).2
    keepAliveAcquire := schedTime
    keepAliveReleases := [(cb (max st.chain schedTime)).1]
    finalOpOutcome := Outcome.ok
    unhandled :=
      match (cb (max st.chain schedTime)).2 with
      | Outcome.ok => none
      | Outcome.err e => some e
    next :=
      { chain :=
          if explicitSerial.getD serializeMode then
            (cb (max st.chain schedTime)).1
          else
            st.chain } }

/-- How registerResourceOutputs schedules its remote operation (lines
299-300 and 335): it calls runAsyncResourceOp with the serial flag
explicitly false, regardless of the process-wide serialize mode. -/
def registerResourceOutputsSchedule (serializeMode : Bool) (st : SchedState)
    (schedTime : Nat) (cb : Nat → Nat × Outcome) : OpRun :=
  runAsyncResourceOp serializeMode (some false) st schedTime cb

@[simp]
theorem lookupKey_nil (k : String) : lookupKey k [] = none := rfl

@[simp]
theorem lookupKey_cons (k : String) (kv : String × JSVal)
    (rest : List (String × JSVal)) :
    lookupKey k (kv :: rest) =
      if kv.1 = k then some kv.2 else lookupKey k rest := rfl

@[simp]
theorem resolveOutputsLoop_nil (ser : JSVal → Option JSVal)
    (de : JSVal → JSVal) (acc : List (String × JSVal)) :
    resolveOutputsLoop ser de acc [] = acc := rfl

theorem resolveOutputsLoop_cons (ser : JSVal → Option JSVal)
    (de : JSVal → JSVal) (acc : List (String × JSVal)) (kv : String × JSVal)
    (rest : List (String × JSVal)) :
    resolveOutputsLoop ser de acc (kv :: rest) =
      if (lookupKey kv.1 acc).isSome then
        resolveOutputsLoop ser de acc rest
      else
        match ser kv.2 with
        | none => resolveOutputsLoop ser de acc rest
        | some sp => resolveOutputsLoop ser de (acc ++ [(kv.1, de sp)]) rest := rfl

theorem lookupKey_append_some (k : String) (l l2 : List (String × JSVal))
    (v : JSVal) (h : lookupKey k l = some v) :
    lookupKey k (l ++ l2) = some v := by
  induction l with
  | nil => simp at h
  | cons kv rest ih =>
    rw [List.cons_append]
    by_cases hk : kv.1 = k
    · rw [lookupKey_cons, if_pos hk] at h ⊢
      exact h
    · rw [lookupKey_cons, if_neg hk] at h ⊢
      exact ih h

theorem lookupKey_append_none (k : String) (l l2 : List (String × JSVal))
    (h : lookupKey k l = none) :
    lookupKey k (l ++ l2) = lookupKey k l2 := by
  induction l with
  | nil => simp
  | cons kv rest ih =>
    rw [List.cons_append]
    by_cases hk : kv.1 = k
    · rw [lookupKey_cons, if_pos hk] at h
      simp at h
    · rw [lookupKey_cons, if_neg hk] at h
      rw [lookupKey_cons, if_neg hk]
      exact ih h

theorem lookupKey_deserializeProperties (de : JSVal → JSVal) (k : String)
    (o : List (String × JSVal)) :
    lookupKey k (deserializeProperties de o) = Option.map de (lookupKey k o) := by
  induction o with
  | nil => simp [deserializeProperties]
  | cons kv rest ih =>
    by_cases hk : kv.1 = k
    · simp [deserializeProperties, hk]
    · simpa [deserializeProperties, hk] using ih

theorem lookupKey_eq_none_iff (k : String) (l : List (String × JSVal)) :
    lookupKey k l = none ↔ k ∉ l.map Prod.fst := by
  induction l with
  | nil => simp
  | cons kv rest ih =>
    by_cases hk : kv.1 = k
    · simp [hk]
    · have hk2 : ¬ (k = kv.1) := fun h => hk h.symm
      simp [hk, hk2, ih]

theorem resolveOutputsLoop_preserve (ser : JSVal → Option JSVal)
    (de : JSVal → JSVal) (props : List (String × JSVal)) :
    ∀ acc k v, lookupKey k acc = some v →
      lookupKey k (resolveOutputsLoop ser de acc props) = some v := by
  induction props with
  | nil => intro acc k v h; simpa using h
  | cons kv rest ih =>
    intro acc k v h
    rw [resolveOutputsLoop_cons]
    cases h2 : (lookupKey kv.1 acc).isSome with
    | true =>
      rw [if_pos rfl]
      exact ih acc k v h
    | false =>
      rw [if_neg Bool.false_ne_true]
      cases hs : ser kv.2 with
      | none => exact ih acc k v h
      | some sp => exact ih _ k v (lookupKey_append_some k acc [(kv.1, de sp)] v h)

theorem resolveOutputsLoop_notMem (ser : JSVal → Option JSVal)
    (de : JSVal → JSVal) (props : List (String × JSVal)) :
    ∀ acc k, k ∉ props.map Prod.fst → lookupKey k acc = none →
      lookupKey k (resolveOutputsLoop ser de acc props) = none := by
  induction props with
  | nil => intro acc k _ h; simpa using h
  | cons kv rest ih =>
    intro acc k hk h
    have hne : kv.1 ≠ k := by
      intro he; exact hk (by simp [he])
    have hrest : k ∉ rest.map Prod.fst := by
      intro hr; exact hk (by simp [hr])
    rw [resolveOutputsLoop_cons]
    cases h2 : (lookupKey kv.1 acc).isSome with
    | true =>
      rw [if_pos rfl]
      exact ih acc k hrest h
    | false =>
      rw [if_neg Bool.false_ne_true]
      cases hs : ser kv.2 with
      | none => exact ih acc k hrest h
      | some sp =>
        refine ih _ k hrest ?_
        rw [lookupKey_append_none k acc _ h]
        simp [hne]

theorem resolveOutputsLoop_found (ser : JSVal → Option JSVal)
    (de : JSVal → JSVal) (props : List (String × JSVal)) :
    ∀ acc k v, lookupKey k acc = none → lookupKey k props = some v →
      (props.map Prod.fst).Nodup →
      lookupKey k (resolveOutputsLoop ser de acc props) = Option.map de (ser v) := by
  induction props with
  | nil => intro acc k v _ h _; simp at h
  | cons kv rest ih =>
    intro acc k v hacc hp hnd
    simp only [List.map_cons, List.nodup_cons] at hnd
    rw [resolveOutputsLoop_cons]
    by_cases hk : kv.1 = k
    · rw [lookupKey_cons, if_pos hk] at hp
      injection hp with hw
      subst hk
      subst hw
      have h2 : (lookupKey kv.1 acc).isSome = false := by rw [hacc]; rfl
      rw [h2, if_neg Bool.false_ne_true]
      cases hs : ser kv.2 with
      | none =>
        exact resolveOutputsLoop_notMem ser de rest acc kv.1 hnd.1 hacc
      | some sp =>
        refine resolveOutputsLoop_preserve ser de rest _ kv.1 (de sp) ?_
        rw [lookupKey_append_none kv.1 acc _ hacc]
        simp
    · rw [lookupKey_cons, if_neg hk] at hp
      cases h2 : (lookupKey kv.1 acc).isSome with
      | true =>
        rw [if_pos rfl]
        exact ih acc k v hacc hp hnd.2
      | false =>
        rw [if_neg Bool.false_ne_true]
        cases hs : ser kv.2 with
        | none => exact ih acc k v hacc hp hnd.2
        | some sp =>
          refine ih _ k v ?_ hp hnd.2
          rw [lookupKey_append_none k acc _ hacc]
          simp [hk]

/-- C3: for every engine-returned output bag and every original input bag,
the merged bag produced by resolveOutputs contains the (deserialized)
engine value for every key the engine returned; every other input key
falls back to the input value after a serialize-then-deserialize round
trip, and a key whose round-tripped serialization is undefined is
omitted entirely; keys present in neither bag are absent. -/
theorem resolveOutputs_merge_spec (ser : JSVal → Option JSVal)
    (de : JSVal → JSVal) (engineOutputs props : List (String × JSVal))
    (k : String) (hnd : (props.map Prod.fst).Nodup) :
    (∀ v, lookupKey k engineOutputs = some v →
      lookupKey k (resolveOutputs ser de (some engineOutputs) props) = some (de v)) ∧
    (lookupKey k engineOutputs = none →
      ∀ v, lookupKey k props = some v →
        lookupKey k (resolveOutputs ser de (some engineOutputs) props) =
          Option.map de (ser v)) ∧
    (lookupKey k engineOutputs = none → lookupKey k props = none →
      lookupKey k (resolveOutputs ser de (some engineOutputs) props) = none) := by
  refine ⟨?_, ?_, ?_⟩
  · intro v hv
    have hinit : lookupKey k (deserializeProperties de engineOutputs) = some (de v) := by
      rw [lookupKey_deserializeProperties, hv]; rfl
    simpa [resolveOutputs] using
      resolveOutputsLoop_preserve ser de props _ k (de v) hinit
  · intro hnone v hv
    have hinit : lookupKey k (deserializeProperties de engineOutputs) = none := by
      rw [lookupKey_deserializeProperties, hnone]; rfl
    simpa [resolveOutputs] using
      resolveOutputsLoop_found ser de props _ k v hinit hv hnd
  · intro hnone hpnone
    have hinit : lookupKey k (deserializeProperties de engineOutputs) = none := by
      rw [lookupKey_deserializeProperties, hnone]; rfl
    have hk : k ∉ props.map Prod.fst := (lookupKey_eq_none_iff k props).mp hpnone
    simpa [resolveOutputs] using
      resolveOutputsLoop_notMem ser de props _ k hk hinit

/-- Witness for C3: the concrete example of the specification.  Engine
output has foo mapped to x; the inputs map foo to y, bar to z, and baz to
a value whose serialization is undefined.  The theorem applied at key bar
yields the round-tripped input value z. -/
theorem resolveOutputs_merge_spec_witness :
    lookupKey "bar"
      (resolveOutputs
        (fun v => if v = JSVal.unknownSentinel then none else some v)
        (fun v => v)
        (some [("foo", JSVal.str "x")])
        [("foo", JSVal.str "y"), ("bar", JSVal.str "z"),
         ("baz", JSVal.unknownSentinel)]) = some (JSVal.str "z") := by
  have h :=
    (resolveOutputs_merge_spec
      (fun v => if v = JSVal.unknownSentinel then none else some v)
      (fun v => v)
      [("foo", JSVal.str "x")]
      [("foo", JSVal.str "y"), ("bar", JSVal.str "z"),
       ("baz", JSVal.unknownSentinel)]
      "bar" (by decide)).2.1 (by decide) (JSVal.str "z") (by decide)
  simpa using h

theorem mem_jsSetAdd (s : List String) (u x : String) :
    x ∈ jsSetAdd s u ↔ (x ∈ s ∨ x = u) := by
  by_cases h : u ∈ s
  · simp only [jsSetAdd, if_pos h]
    constructor
    · exact Or.inl
    · rintro (hx | rfl)
      · exact hx
      · exact h
  · simp [jsSetAdd, if_neg h]

theorem nodup_jsSetAdd (s : List String) (u : String) (h : s.Nodup) :
    (jsSetAdd s u).Nodup := by
  by_cases hm : u ∈ s
  · simpa [jsSetAdd, if_pos hm] using h
  · simp [jsSetAdd, if_neg hm, List.nodup_append, h, hm]

theorem mem_foldl_jsSetAdd (l : List String) :
    ∀ s x, x ∈ l.foldl jsSetAdd s ↔ (x ∈ s ∨ x ∈ l) := by
  induction l with
  | nil => intro s x; simp
  | cons u rest ih =>
    intro s x
    rw [List.foldl_cons, ih]
    rw [mem_jsSetAdd]
    constructor
    · rintro ((hx | rfl) | hx)
      · exact Or.inl hx
      · exact Or.inr (List.mem_cons_self _ _)
      · exact Or.inr (List.mem_cons_of_mem u hx)
    · rintro (hx | hx)
      · exact Or.inl (Or.inl hx)
      · rcases List.mem_cons.mp hx with rfl | hx
        · exact Or.inl (Or.inr rfl)
        · exact Or.inr hx

theorem nodup_foldl_jsSetAdd (l : List String) :
    ∀ s, s.Nodup → (l.foldl jsSetAdd s).Nodup := by
  induction l with
  | nil => intro s h; simpa using h
  | cons u rest ih =>
    intro s h
    rw [List.foldl_cons]
    exact ih _ (nodup_jsSetAdd s u h)

/-- C4: for every resource prepared for registration or read, the
dependency URN list sent to the engine is duplicate-free and contains a
URN exactly when it is the URN of an explicitly declared dependency or of
a resource implicitly referenced inside the serialized input values.
The membership characterization mentions only the contents of the two
sources, so it is independent of the order in which either is declared. -/
theorem prepareResource_dependency_set (dependsOn : DependsOnOpt)
    (implicitDependencies : List SRes) :
    (prepareResourceDependencies dependsOn implicitDependencies).Nodup ∧
    ∀ u, u ∈ prepareResourceDependencies dependsOn implicitDependencies ↔
      (u ∈ (normalizeDependsOn dependsOn).map SRes.urn ∨
       u ∈ implicitDependencies.map SRes.urn) := by
  constructor
  · exact nodup_foldl_jsSetAdd _ _
      (nodup_foldl_jsSetAdd _ _ List.nodup_nil)
  · intro u
    unfold prepareResourceDependencies jsSetOfList
    rw [mem_foldl_jsSetAdd, mem_foldl_jsSetAdd]
    simp [or_comm]

/-- C10: for every resource, custom or composite, preparation resolves the
URN output's apply-eligibility channel to true immediately, while the raw
URN value channel is still pending; and the id output exists exactly for
custom resources. -/
theorem prepareResource_urn_apply_eligibility (custom : Bool)
    (propKeys : List String) :
    (prepareResourceSync custom propKeys).urn =
      some { value := Chan.pending, performApply := Chan.resolved true } ∧
    ((prepareResourceSync custom propKeys).id ≠ none ↔ custom = true) := by
  constructor
  · rfl
  · cases custom <;> simp [prepareResourceSync]

/-- Counterexample to C1 as stated: a read operation that fails with the
engine-endpoint-unavailable status does NOT invoke termination parking;
the readResource completion callback (lines 86-97) has no UNAVAILABLE
check and rejects the operation with the read-failure error. -/
theorem readResource_unavailable_counterexample :
    readResourceCallbackOutcome "id0" "n" "t"
        (some { code := grpcStatusUNAVAILABLE, message := "m" }) (0 : Nat) =
      RpcOutcome.rejected "failed to read resource #id0 n [t]: m" ∧
    readResourceCallbackOutcome "id0" "n" "t"
        (some { code := grpcStatusUNAVAILABLE, message := "m" }) (0 : Nat) ≠
      RpcOutcome.parked := by
  constructor
  · rfl
  · intro h
    simp [readResourceCallbackOutcome] at h

/-- C1 (amended): for every remote register or attach-outputs operation
that fails with the engine-endpoint-unavailable status, the client raises
no error and invokes termination parking (waitForDeath, which never
returns, so no further remote calls are issued); a remote read operation
failing with that status instead rejects with the read-failure error. -/
theorem registerResource_unavailable_parks {α : Type} (name t : String)
    (e : GrpcError) (resp : α) (h : e.code = grpcStatusUNAVAILABLE) :
    registerResourceCallbackOutcome name t (some e) resp = RpcOutcome.parked ∧
    registerResourceOutputsCallbackOutcome (some e) resp = RpcOutcome.parked := by
  constructor
  · simp [registerResourceCallbackOutcome, h]
  · simp [registerResourceOutputsCallbackOutcome, h]

/-- Witness for C1 (amended) at a concrete UNAVAILABLE error. -/
theorem registerResource_unavailable_parks_witness :
    registerResourceCallbackOutcome "n" "t"
        (some { code := 14, message := "m" }) (0 : Nat) = RpcOutcome.parked ∧
    registerResourceOutputsCallbackOutcome
        (some { code := 14, message := "m" }) (0 : Nat) = RpcOutcome.parked :=
  registerResource_unavailable_parks "n" "t" { code := 14, message := "m" } 0 rfl

/-- Counterexample to C6 as stated: an id that is present in the options
but equal to the empty string still makes readResource throw, so "with an
id present, no such failure occurs" fails at this input. -/
theorem readResource_empty_id_counterexample :
    some (IdInput.str "") ≠ (none : Option IdInput) ∧
    readResourceIdCheck (some (IdInput.str "")) =
      Except.error "Cannot read resource whose options are lacking an ID value" := by
  constructor
  · simp
  · rfl

/-- C6 (amended): the synchronous check at the top of readResource
succeeds exactly when the id option is present and JavaScript-truthy:
absent and empty-string ids throw before any resource preparation or
remote call, and any other id passes. -/
theorem readResource_id_check_characterization (optsId : Option IdInput) :
    readResourceIdCheck optsId = Except.ok () ↔
      (optsId ≠ none ∧ optsId ≠ some (IdInput.str "")) := by
  cases optsId with
  | none => simp [readResourceIdCheck, idInputTruthy]
  | some i =>
    cases i with
    | obj => simp [readResourceIdCheck, idInputTruthy]
    | str s =>
      by_cases hs : s = ""
      · subst hs
        simp [readResourceIdCheck, idInputTruthy]
      · simp [readResourceIdCheck, idInputTruthy, hs]

/-- C7: for every custom resource registration that succeeds, the identity
deferred value is resolved to the engine-returned id with
apply-eligibility true, except that an empty (absent) engine id is
collapsed to undefined with apply-eligibility false, never to a falsy
scalar. -/
theorem registerResource_id_collapse (ser : JSVal → Option JSVal)
    (de : JSVal → JSVal) (props : List (String × JSVal))
    (resp : RegisterResourceResponse) :
    (resp.id = "" →
      (registerResourceOnSuccess ser de props true resp).idResolution =
        some (none, false)) ∧
    (resp.id ≠ "" →
      (registerResourceOnSuccess ser de props true resp).idResolution =
        some (some resp.id, true)) := by
  constructor
  · intro h
    simp [registerResourceOnSuccess, registerResourceIdResolution, h]
  · intro h
    simp [registerResourceOnSuccess, registerResourceIdResolution, h]

/-- Witness for C7: an empty engine id collapses to the no-id state and a
non-empty engine id is taken as is. -/
theorem registerResource_id_collapse_witness :
    (registerResourceOnSuccess (fun v => some v) (fun v => v) [] true
        { urn := "u", id := "", obj := none }).idResolution =
      some (none, false) ∧
    (registerResourceOnSuccess (fun v => some v) (fun v => v) [] true
        { urn := "u", id := "abc", obj := none }).idResolution =
      some (some "abc", true) := by
  constructor
  · exact (registerResource_id_collapse (fun v => some v) (fun v => v) []
      { urn := "u", id := "", obj := none }).1 rfl
  · exact (registerResource_id_collapse (fun v => some v) (fun v => v) []
      { urn := "u", id := "abc", obj := none }).2 (by decide)

/-- C9: for every successful read, the URN deferred value is resolved to
the engine-returned URN and the identity deferred value to the
caller-supplied id as serialized before the call; the id resolution does
not depend on the response at all, so it is never an engine-assigned
value. -/
theorem readResource_success_resolution (ser : JSVal → Option JSVal)
    (de : JSVal → JSVal) (props : List (String × JSVal))
    (resolvedID : Option String) (resp : ReadResourceResponse) :
    (readResourceOnSuccess ser de props resolvedID resp).urnValue = resp.urn ∧
    (readResourceOnSuccess ser de props resolvedID resp).idValue = resolvedID ∧
    ∀ resp2 : ReadResourceResponse,
      (readResourceOnSuccess ser de props resolvedID resp2).idValue =
        resolvedID :=
  ⟨rfl, rfl, fun _ => rfl⟩

/-- C5: with serialize-mode enabled, for two serial operations scheduled
in order A then B, the callback of B (and hence its remote call) starts
no earlier than the completion of the whole operation of A, whatever the
scheduling time of B (in particular when B is ready before A completes);
after each serial operation the chain state holds exactly that single
operation's completion, the previous chain value being discarded; and
with serialize-mode disabled the chain is never replaced and each
callback starts at its own scheduling time, so no ordering is imposed. -/
theorem runAsyncResourceOp_serialization (st : SchedState) (tA tB : Nat)
    (cbA cbB : Nat → Nat × Outcome) :
    (runAsyncResourceOp true none st tA cbA).opEnd ≤
      (runAsyncResourceOp true none
        (runAsyncResourceOp true none st tA cbA).next tB cbB).cbStart ∧
    (runAsyncResourceOp true none st tA cbA).next.chain =
      (runAsyncResourceOp true none st tA cbA).opEnd ∧
    (runAsyncResourceOp true none
        (runAsyncResourceOp true none st tA cbA).next tB cbB).next.chain =
      (runAsyncResourceOp true none
        (runAsyncResourceOp true none st tA cbA).next tB cbB).opEnd ∧
    (runAsyncResourceOp false none st tA cbA).next = st ∧
    (runAsyncResourceOp false none initialSchedState tA cbA).cbStart = tA ∧
    (runAsyncResourceOp false none
        (runAsyncResourceOp false none initialSchedState tA cbA).next tB
        cbB).cbStart = tB := by
  refine ⟨?_, rfl, rfl, rfl, ?_, ?_⟩
  · show (cbA (max st.chain tA)).1 ≤ max (cbA (max st.chain tA)).1 tB
    exact Nat.le_max_left _ _
  · show max 0 tA = tA
    omega
  · show max 0 tB = tB
    omega

/-- Counterexample to C2 as stated: with serialize-mode enabled and a
registration operation still pending on the chain (callback takes from
time 0 to time 5), an attach-outputs operation scheduled at time 1 does
not start its callback at time 1; the callback is delayed until the
pending registration completes at time 5, because every operation starts
via resourceChain.then (line 353), serial or not. -/
theorem registerResourceOutputs_delay_counterexample :
    (registerResourceOutputsSchedule true
        (runAsyncResourceOp true none initialSchedState 0
          (fun s => (s + 5, Outcome.ok))).next
        1 (fun s => (s + 1, Outcome.ok))).cbStart =
      (runAsyncResourceOp true none initialSchedState 0
        (fun s => (s + 5, Outcome.ok))).opEnd ∧
    (registerResourceOutputsSchedule true
        (runAsyncResourceOp true none initialSchedState 0
          (fun s => (s + 5, Outcome.ok))).next
        1 (fun s => (s + 1, Outcome.ok))).cbStart ≠ 1 := by
  constructor
  · rfl
  · decide

/-- C2 (amended): an attach-outputs operation is scheduled with the serial
flag explicitly false, so it never becomes part of the serial chain: the
chain state is left unchanged and later serial operations therefore do
not wait on it.  Its callback does, however, start only once the chain as
of its scheduling time has settled (at the maximum of its scheduling time
and the settle time of the current chain), so an earlier registration
already pending on the chain can delay its remote call. -/
theorem registerResourceOutputs_nonserial (serializeMode : Bool)
    (st : SchedState) (t : Nat) (cb : Nat → Nat × Outcome) :
    (registerResourceOutputsSchedule serializeMode st t cb).next = st ∧
    (registerResourceOutputsSchedule serializeMode st t cb).cbStart =
      max st.chain t :=
  ⟨rfl, rfl⟩

/-- C8: for every operation scheduled through runAsyncResourceOp, serial
or not, the keep-alive token is acquired at scheduling time, before the
callback starts; it is released exactly once, at the completion of the
operation, on the success and the failure path alike; the chain
continuation itself always fulfills (it swallows the error to keep the
chain alive); and a failing callback still surfaces its error to the
top-level unhandled-rejection reporting. -/
theorem runAsyncResourceOp_keepalive (serializeMode : Bool)
    (explicitSerial : Option Bool) (st : SchedState) (t : Nat)
    (cb : Nat → Nat × Outcome) :
    (runAsyncResourceOp serializeMode explicitSerial st t cb).keepAliveAcquire ≤
      (runAsyncResourceOp serializeMode explicitSerial st t cb).cbStart ∧
    (runAsyncResourceOp serializeMode explicitSerial st t cb).keepAliveReleases =
      [(runAsyncResourceOp serializeMode explicitSerial st t cb).opEnd] ∧
    (runAsyncResourceOp serializeMode explicitSerial st t cb).finalOpOutcome =
      Outcome.ok ∧
    ((runAsyncResourceOp serializeMode explicitSerial st t cb).outcome =
        Outcome.ok →
      (runAsyncResourceOp serializeMode explicitSerial st t cb).unhandled =
        none) ∧
    ∀ e, (runAsyncResourceOp serializeMode explicitSerial st t cb).outcome =
        Outcome.err e →
      (runAsyncResourceOp serializeMode explicitSerial st t cb).unhandled =
        some e := by
  refine ⟨?_, rfl, rfl, ?_, ?_⟩
  · show t ≤ max st.chain t
    exact Nat.le_max_right _ _
  · intro h
    have h2 : (cb (max st.chain t)).2 = Outcome.ok := h
    show (match (cb (max st.chain t)).2 with
          | Outcome.ok => none
          | Outcome.err e => some e) = (none : Option String)
    rw [h2]
  · intro e h
    have h2 : (cb (max st.chain t)).2 = Outcome.err e := h
    show (match (cb (max st.chain t)).2 with
          | Outcome.ok => none
          | Outcome.err e2 => some e2) = some e
    rw [h2]

/-- Witness for C8 at a concrete failing operation: the error surfaces to
the unhandled-rejection reporting and the keep-alive token is released
exactly once at completion. -/
theorem runAsyncResourceOp_keepalive_witness :
    (runAsyncResourceOp true none initialSchedState 2
        (fun s => (s + 3, Outcome.err "boom"))).unhandled = some "boom" ∧
    (runAsyncResourceOp true none initialSchedState 2
        (fun s => (s + 3, Outcome.err "boom"))).keepAliveReleases =
      [(runAsyncResourceOp true none initialSchedState 2
          (fun s => (s + 3, Outcome.err "boom"))).opEnd] := by
  constructor
  · exact (runAsyncResourceOp_keepalive true none initialSchedState 2
      (fun s => (s + 3, Outcome.err "boom"))).2.2.2.2 "boom" rfl
  · exact (runAsyncResourceOp_keepalive true none initialSchedState 2
      (fun s => (s + 3, Outcome.err "boom"))).2.1
